import Mathlib

/-!
# The streamed-position GNSS example (`app/src/main.c`)

A shallow embedding of the three functions of `main.c`:

* `latLongToBits` : splits a coordinate scaled by `10^7` into a sign character, a whole part
  and a fractional part, with 32-bit signed arithmetic;
* `callback`      : the streamed-position handler, which prints one line per success-coded fix and
  bumps the global `gPositionCount`;
* `main`          : open the device, start streaming, wait (at most 60 sleeps of one second) for
  five fixes, stop, close.

C `int32_t` values are integers kept in `[-2^31, 2^31)`; the one arithmetic operation of the
program that can leave that range (unary minus) is followed by `wrap32`.  `size_t` is an unsigned
type whose width is fixed by the platform header, not by `main.c`; its modulus `SIZE_MAX + 1` is
the parameter `M` of `callback`, `waitLoop` and `main`.  The calls into ubxlib are recorded, in
order, in a trace of `Event`s.
-/

namespace UblxZephyr

/-! ## 32-bit signed integers -/

/-- Smallest `int32_t`. -/
def INT32_MIN : Int := -2147483648

/-- Largest `int32_t`. -/
def INT32_MAX : Int := 2147483647

/-- Reduction of an integer to the two's-complement `int32_t` with the same low 32 bits. -/
def wrap32 (x : Int) : Int := (x + 2147483648) % 4294967296 - 2147483648

/-- The value is representable as an `int32_t`. -/
def isInt32 (v : Int) : Prop := INT32_MIN ≤ v ∧ v ≤ INT32_MAX

instance (v : Int) : Decidable (isInt32 v) :=
  inferInstanceAs (Decidable (INT32_MIN ≤ v ∧ v ≤ INT32_MAX))

/-! ## `latLongToBits` -/

/-- What `latLongToBits` hands back: the returned character and the two values stored through
`pWhole` and `pFraction`. -/
structure Bits where
  /-- The returned character (`+` or `-`). -/
  sign : Char
  /-- The value stored in `*pWhole`. -/
  whole : Int
  /-- The value stored in `*pFraction`. -/
  fraction : Int
deriving DecidableEq, Repr

/-- Embedding of `latLongToBits` (`main.c`, lines 71-86).  `/` and `%` of C truncate towards zero
(`Int.tdiv`, `Int.tmod`); the negation is the two's-complement one of the target (ISO C leaves
`-INT32_MIN` undefined; every other negation is exact). -/
def latLongToBits (thingX1e7 : Int) : Bits :=
  let thing := if thingX1e7 < 0 then wrap32 (-thingX1e7) else thingX1e7
  { sign := if thingX1e7 < 0 then '-' else '+',
    whole := Int.tdiv thing 10000000,
    fraction := Int.tmod thing 10000000 }

/-- The multiplier a sign character stands for: `-1` for `-`, `+1` for anything else. -/
def signMultiplier (c : Char) : Int := if c = '-' then -1 else 1

/-! ## The `printf`-style logger -/

/-- An argument of a variadic `uPortLog` call. -/
inductive Arg where
  | chr (c : Char)
  | int (n : Int)
deriving DecidableEq, Repr

/-- Modelled from the spec: `uPortLog` is ubxlib's `printf`, which is not part of `main.c`.  This is
the text a `%d` (width `0`) or `%07d` (width `7`) conversion produces for `n`: a minus sign when
`n` is negative, then zeros up to the field width, then the decimal digits of the magnitude. -/
def fmtInt (width : Nat) (n : Int) : List Char :=
  let digits := Nat.toDigits 10 n.natAbs
  let minus := if n < 0 then ['-'] else []
  minus ++ List.replicate (width - (minus.length + digits.length)) '0' ++ digits

/-- Modelled from the spec: interpretation of a `uPortLog` format string, for the three
conversions `main.c` uses (`%c`, `%d`, `%07d`); every other character is copied. -/
def formatChars : List Char → List Arg → List Char
  | [], _ => []
  | '%' :: 'c' :: rest, Arg.chr c :: args => c :: formatChars rest args
  | '%' :: 'd' :: rest, Arg.int n :: args => fmtInt 0 n ++ formatChars rest args
  | '%' :: '0' :: '7' :: 'd' :: rest, Arg.int n :: args => fmtInt 7 n ++ formatChars rest args
  | ch :: rest, args => ch :: formatChars rest args

/-- The text a `uPortLog(fmt, args...)` call writes. -/
def format (fmt : String) (args : List Arg) : String :=
  String.mk (formatChars fmt.data args)

/-! ## The trace of calls into ubxlib -/

/-- One call from `main.c` into the port / device / GNSS API. -/
inductive Event where
  | uPortInit
  | uPortI2cInit
  | uPortSpiInit
  | uDeviceInit
  | uDeviceOpen
  | uDeviceSetUserContext
  | pUDeviceGetUserContext
  | uGnssPosGetStreamedStart (periodMs : Int)
  | uPortTaskBlock (ms : Int)
  | uGnssPosGetStreamedStop
  | uDeviceClose (powerOff : Bool)
  | uDeviceDeinit
  | uPortSpiDeinit
  | uPortI2cDeinit
  | uPortDeinit
  | uPortLog (text : String)
deriving DecidableEq, Repr

/-- The program state visible outside a function: the global `gPositionCount` and the calls made
so far, oldest first. -/
structure World where
  /-- The global `static size_t gPositionCount`. -/
  gPositionCount : Nat
  /-- Calls into ubxlib so far. -/
  trace : List Event
deriving DecidableEq, Repr

/-- Append one call to the trace. -/
def World.emit (w : World) (e : Event) : World :=
  { w with trace := w.trace ++ [e] }

/-- A `uPortLog` call. -/
def World.log (w : World) (fmt : String) (args : List Arg) : World :=
  w.emit (Event.uPortLog (format fmt args))

/-- The lines written by `uPortLog` in a trace, oldest first. -/
def outputLines : List Event → List String
  | [] => []
  | Event.uPortLog text :: es => text :: outputLines es
  | _ :: es => outputLines es

/-- Number of `uPortTaskBlock` calls in a trace. -/
def sleeps : List Event → Nat
  | [] => 0
  | Event.uPortTaskBlock _ :: es => sleeps es + 1
  | _ :: es => sleeps es

/-! ## `callback` -/

/-- The arguments of one invocation of `callback` by the GNSS layer (the device handle apart). -/
structure Fix where
  errorCode : Int
  latitudeX1e7 : Int
  longitudeX1e7 : Int
  altitudeMillimetres : Int
  radiusMillimetres : Int
  speedMillimetresPerSecond : Int
  svs : Int
  timeUtc : Int
deriving DecidableEq, Repr

/-- Embedding of `callback` (`main.c`, lines 89-124).  `M` is `SIZE_MAX + 1`: `gPositionCount++`
is an unsigned increment. -/
def callback (M : Nat) (w : World) (f : Fix) : World :=
  let w := w.emit Event.pUDeviceGetUserContext
  if f.errorCode = 0 then
    let b0 := latLongToBits f.longitudeX1e7
    let b1 := latLongToBits f.latitudeX1e7
    let w := w.log "I am here: https://maps.google.com/?q=%c%d.%07d,%c%d.%07d\n"
      [Arg.chr b1.sign, Arg.int b1.whole, Arg.int b1.fraction,
       Arg.chr b0.sign, Arg.int b0.whole, Arg.int b0.fraction]
    { w with gPositionCount := (w.gPositionCount + 1) % M }
  else
    w

/-- The GNSS layer invoking `callback` once per fix of a batch, in order. -/
def deliver (M : Nat) (w : World) (fixes : List Fix) : World :=
  fixes.foldl (callback M) w

/-- Number of success-coded fixes in a batch. -/
def successes (fixes : List Fix) : Nat :=
  (fixes.filter (fun f => f.errorCode = 0)).length

/-! ## `main` -/

/-- Embedding of `uPortTaskBlock(ms)` as `main` sees it: the call is recorded, and while the task
sleeps the GNSS layer delivers a batch of fixes to `callback`. -/
def uPortTaskBlock (M : Nat) (batch : List Fix) (ms : Int) (w : World) : World :=
  deliver M (w.emit (Event.uPortTaskBlock ms)) batch

/-- Embedding of the wait loop of `main` (`main.c`, lines 169-172):
`while ((gPositionCount < 5) && (guardCount < 60)) { uPortTaskBlock(1000); guardCount++; }`.
`sched i` is the batch of fixes delivered during the `i`-th sleep from now.  The first argument
is fuel: `none` means the fuel ran out before the loop condition became false. -/
def waitLoop (M : Nat) : Nat → (Nat → List Fix) → World → Int → Option (World × Int)
  | 0, _, _, _ => none
  | fuel + 1, sched, w, guardCount =>
    if w.gPositionCount < 5 ∧ guardCount < 60 then
      waitLoop M fuel (fun i => sched (i + 1)) (uPortTaskBlock M (sched 0) 1000 w)
        (wrap32 (guardCount + 1))
    else
      some (w, guardCount)

/-- The state of the wait loop at its `n`-th evaluation of the loop condition (counting from `0`),
`none` when the loop has exited before. -/
def waitLoopAt (M : Nat) : Nat → (Nat → List Fix) → World → Int → Option (World × Int)
  | 0, _, w, guardCount => some (w, guardCount)
  | n + 1, sched, w, guardCount =>
    if w.gPositionCount < 5 ∧ guardCount < 60 then
      waitLoopAt M n (fun i => sched (i + 1)) (uPortTaskBlock M (sched 0) 1000 w)
        (wrap32 (guardCount + 1))
    else
      none

/-- What the surroundings of `main` decide: the two return codes, the streaming period constant
`U_GNSS_POS_STREAMED_PERIOD_DEFAULT_MS` (defined in ubxlib, not in `main.c`), and when fixes are
delivered. -/
structure Env where
  /-- Return code of `uDeviceOpen`. -/
  openCode : Int
  /-- Return code of `uGnssPosGetStreamedStart`. -/
  startCode : Int
  /-- Value of `U_GNSS_POS_STREAMED_PERIOD_DEFAULT_MS`. -/
  periodMs : Int
  /-- Fixes delivered after the stream has started and before the loop condition is first
  evaluated. -/
  early : List Fix
  /-- Fixes delivered during the `i`-th sleep of the wait loop. -/
  sched : Nat → List Fix

/-- The locals of `main` and the world when `main` reaches its `return`. -/
structure MainResult where
  world : World
  returnCode : Int
  guardCount : Int

/-- Embedding of `main` (`main.c`, lines 133-197), from a world `w` (at program start
`gPositionCount = 0` and the trace is empty).  `fuel` bounds the wait loop; the result is `none`
when it runs out.  The `EXAMPLE_FINAL_STATE` line of u-blox internal testing is compiled out. -/
def main (M : Nat) (env : Env) (fuel : Nat) (w : World) : Option MainResult :=
  let w := w.emit Event.uPortInit
  let w := w.emit Event.uPortI2cInit
  let w := w.emit Event.uPortSpiInit
  let w := w.emit Event.uDeviceInit
  let w := w.emit Event.uDeviceOpen
  let returnCode := env.openCode
  let w := w.log "Opened device with return code %d.\n" [Arg.int returnCode]
  let tidyUp (r : MainResult) : MainResult :=
    let w := r.world.emit Event.uDeviceDeinit
    let w := w.emit Event.uPortSpiDeinit
    let w := w.emit Event.uPortI2cDeinit
    let w := w.emit Event.uPortDeinit
    { r with world := w.log "Done.\n" [] }
  if returnCode = 0 then
    let w := w.emit Event.uDeviceSetUserContext
    let w := w.log "Starting position stream.\n" []
    let w := w.emit (Event.uGnssPosGetStreamedStart env.periodMs)
    let returnCode := env.startCode
    if returnCode = 0 then
      let w := deliver M w env.early
      let w := w.log "Waiting up to 60 seconds for 5 position fixes.\n" []
      match waitLoop M fuel env.sched w 0 with
      | none => none
      | some (w, guardCount) =>
        let w := w.emit Event.uGnssPosGetStreamedStop
        let w := w.emit (Event.uDeviceClose false)
        some (tidyUp { world := w, returnCode := returnCode, guardCount := guardCount })
    else
      let w := w.log "Unable to start position stream!\n" []
      let w := w.emit (Event.uDeviceClose false)
      some (tidyUp { world := w, returnCode := returnCode, guardCount := 0 })
  else
    let w := w.log "Unable to open GNSS!\n" []
    some (tidyUp { world := w, returnCode := returnCode, guardCount := 0 })

/-- Number of success-coded fixes delivered during the first `k` sleeps of a schedule. -/
def successesUpTo (sched : Nat → List Fix) : Nat → Nat
  | 0 => 0
  | k + 1 => successes (sched 0) + successesUpTo (fun i => sched (i + 1)) k

/-- A log line that reports a failure: its text starts with `Unable`, as the two failure
messages of `main` do (`Unable to open GNSS!`, `Unable to start position stream!`). -/
def isFailureMessage : Event → Bool
  | Event.uPortLog text => text.data.take 6 = ['U', 'n', 'a', 'b', 'l', 'e']
  | _ => false

/-- A call of `uGnssPosGetStreamedStop`. -/
def isStop : Event → Bool
  | Event.uGnssPosGetStreamedStop => true
  | _ => false

/-- A call of `uDeviceClose`, whatever its power-off argument. -/
def isClose : Event → Bool
  | Event.uDeviceClose _ => true
  | _ => false

/-- The world at program start: `gPositionCount` is statically initialised to `0` and nothing
has been called. -/
def World.start : World := { gPositionCount := 0, trace := [] }

/-- The world after `k` iterations of the body of the wait loop (`k` sleeps with their
deliveries), whether or not the loop condition would have let them run. -/
def sleepN (M : Nat) : Nat → (Nat → List Fix) → World → World
  | 0, _, w => w
  | k + 1, sched, w => sleepN M k (fun i => sched (i + 1)) (uPortTaskBlock M (sched 0) 1000 w)

/-! ## Specification-side rendering of a coordinate -/

/-- The `k` low-order decimal digits of `n`, most significant first: `n` written with exactly `k`
digits, zero-padded on the left. -/
def fixedDigits : Nat → Nat → List Char
  | 0, _ => []
  | k + 1, n => fixedDigits k (n / 10) ++ [Nat.digitChar (n % 10)]

/-- The rendering of a scaled coordinate the specification describes: sign character, the decimal
digits of `|v| div 10^7`, a dot, and `|v| mod 10^7` on exactly seven digits. -/
def renderCoordinate (v : Int) : String :=
  String.mk ([if v < 0 then '-' else '+'] ++ Nat.toDigits 10 (v.natAbs / 10000000) ++ ['.'] ++
    fixedDigits 7 (v.natAbs % 10000000))

/-- The rendering of a scaled coordinate `callback` prints: `latLongToBits` followed by the
conversions `%c%d.%07d`. -/
def printedCoordinate (v : Int) : String :=
  format "%c%d.%07d"
    [Arg.chr (latLongToBits v).sign, Arg.int (latLongToBits v).whole,
     Arg.int (latLongToBits v).fraction]

/-! ## Facts about `latLongToBits` -/

theorem wrap32_neg_of_neg (v : Int) (h1 : INT32_MIN < v) (h2 : v < 0) : wrap32 (-v) = -v := by
  unfold wrap32; unfold INT32_MIN at h1; omega

theorem latLongToBits_of_nonneg (v : Int) (h : 0 ≤ v) :
    latLongToBits v = ⟨'+', Int.tdiv v 10000000, Int.tmod v 10000000⟩ := by
  have h0 : ¬ v < 0 := by omega
  simp [latLongToBits, h0]

theorem latLongToBits_of_neg (v : Int) (h1 : INT32_MIN < v) (h2 : v < 0) :
    latLongToBits v = ⟨'-', Int.tdiv (-v) 10000000, Int.tmod (-v) 10000000⟩ := by
  simp [latLongToBits, h2, wrap32_neg_of_neg v h1 h2]

/-- Away from `INT32_MIN`, `latLongToBits` is the truncated division of `|v|` by `10^7`. -/
theorem latLongToBits_eq (v : Int) (hv : isInt32 v) (hmin : v ≠ INT32_MIN) :
    latLongToBits v =
      ⟨if v < 0 then '-' else '+', ((v.natAbs / 10000000 : Nat) : Int),
        ((v.natAbs % 10000000 : Nat) : Int)⟩ := by
  have hlo : INT32_MIN < v := lt_of_le_of_ne hv.1 (Ne.symm hmin)
  by_cases h : v < 0
  · rw [latLongToBits_of_neg v hlo h]
    have e : -v = ((v.natAbs : Nat) : Int) := by omega
    simp only [h, if_true, e]
    rfl
  · rw [latLongToBits_of_nonneg v (by omega)]
    have e : v = ((v.natAbs : Nat) : Int) := by omega
    simp only [h, if_false]
    conv_lhs => rw [e]
    rfl

/-! ## Claims about `latLongToBits` -/

/-- C1: for every `int32_t` value `v` other than `-2^31`, `latLongToBits` returns `-` exactly when
`v < 0` and `+` otherwise, and the stored parts satisfy `whole * 10^7 + fraction = |v|`; on `0` it
yields `(+, 0, 0)` and on `-1234567` it yields `(-, 0, 1234567)`. -/
theorem latLongToBits_sign_and_parts (v : Int) (hv : isInt32 v) (hmin : v ≠ INT32_MIN) :
    ((latLongToBits v).sign = '-' ↔ v < 0) ∧
    (¬ v < 0 → (latLongToBits v).sign = '+') ∧
    (latLongToBits v).whole * 10000000 + (latLongToBits v).fraction = |v| ∧
    latLongToBits 0 = ⟨'+', 0, 0⟩ ∧
    latLongToBits (-1234567) = ⟨'-', 0, 1234567⟩ := by
  have hlo : INT32_MIN < v := lt_of_le_of_ne hv.1 (Ne.symm hmin)
  refine ⟨?_, ?_, ?_, by decide, by decide⟩
  · by_cases h : v < 0
    · simp [latLongToBits_of_neg v hlo h, h]
    · have hp : latLongToBits v = _ := latLongToBits_of_nonneg v (by omega)
      rw [hp]
      simp only [h, iff_false]
      decide
  · intro h
    rw [latLongToBits_of_nonneg v (by omega)]
  · by_cases h : v < 0
    · rw [latLongToBits_of_neg v hlo h, abs_of_neg h]
      have := Int.tdiv_add_tmod (-v) 10000000
      simp only
      omega
    · rw [latLongToBits_of_nonneg v (by omega), abs_of_nonneg (by omega)]
      have := Int.tdiv_add_tmod v 10000000
      simp only
      omega

/-- Witness of C1 at `v = 521234567`. -/
theorem latLongToBits_sign_and_parts_witness :
    ((latLongToBits 521234567).sign = '-' ↔ (521234567 : Int) < 0) ∧
    (¬ (521234567 : Int) < 0 → (latLongToBits 521234567).sign = '+') ∧
    (latLongToBits 521234567).whole * 10000000 + (latLongToBits 521234567).fraction
      = |(521234567 : Int)| ∧
    latLongToBits 0 = ⟨'+', 0, 0⟩ ∧
    latLongToBits (-1234567) = ⟨'-', 0, 1234567⟩ :=
  latLongToBits_sign_and_parts 521234567 (by decide) (by decide)

/-- C2: round trip.  For `int32_t` values `v`, `u` other than `-2^31`, the sign multiplier of the
returned character times `whole * 10^7 + fraction` is `v` again, so two values with the same
result are equal. -/
theorem latLongToBits_round_trip (v u : Int) (hv : isInt32 v) (hvmin : v ≠ INT32_MIN)
    (hu : isInt32 u) (humin : u ≠ INT32_MIN) :
    signMultiplier (latLongToBits v).sign *
        ((latLongToBits v).whole * 10000000 + (latLongToBits v).fraction) = v ∧
    (latLongToBits v = latLongToBits u → v = u) := by
  have key : ∀ x : Int, isInt32 x → x ≠ INT32_MIN →
      signMultiplier (latLongToBits x).sign *
        ((latLongToBits x).whole * 10000000 + (latLongToBits x).fraction) = x := by
    intro x hx hxmin
    have hlo : INT32_MIN < x := lt_of_le_of_ne hx.1 (Ne.symm hxmin)
    by_cases h : x < 0
    · rw [latLongToBits_of_neg x hlo h]
      have := Int.tdiv_add_tmod (-x) 10000000
      have hs : signMultiplier '-' = -1 := by decide
      simp only [hs]
      omega
    · rw [latLongToBits_of_nonneg x (by omega)]
      have := Int.tdiv_add_tmod x 10000000
      have hs : signMultiplier '+' = 1 := by decide
      simp only [hs]
      omega
  refine ⟨key v hv hvmin, fun e => ?_⟩
  have h1 := key v hv hvmin
  have h2 := key u hu humin
  rw [e] at h1
  exact h1.symm.trans h2

/-- Witness of C2 at `v = -1234567`, `u = 521234567`. -/
theorem latLongToBits_round_trip_witness :
    signMultiplier (latLongToBits (-1234567)).sign *
        ((latLongToBits (-1234567)).whole * 10000000 + (latLongToBits (-1234567)).fraction)
      = -1234567 ∧
    (latLongToBits (-1234567) = latLongToBits 521234567 → (-1234567 : Int) = 521234567) :=
  latLongToBits_round_trip (-1234567) 521234567 (by decide) (by decide) (by decide) (by decide)

/-- C3, counterexample: at `v = -2^31` the 32-bit negation wraps back to `-2^31`, and the parts
stored are `whole = -214` and `fraction = -7483648`, both negative. -/
theorem latLongToBits_int32_min_negative_parts :
    isInt32 INT32_MIN ∧
    latLongToBits INT32_MIN = ⟨'-', -214, -7483648⟩ ∧
    ¬ (0 ≤ (latLongToBits INT32_MIN).fraction ∧ (latLongToBits INT32_MIN).fraction ≤ 9999999 ∧
        0 ≤ (latLongToBits INT32_MIN).whole) := by
  decide

/-- C3, amended: for every `int32_t` value `v` other than `-2^31`, the fraction stored by
`latLongToBits` lies in `0 .. 9999999` and the whole part stored is non-negative. -/
theorem latLongToBits_parts_in_range (v : Int) (hv : isInt32 v) (hmin : v ≠ INT32_MIN) :
    0 ≤ (latLongToBits v).fraction ∧ (latLongToBits v).fraction ≤ 9999999 ∧
    0 ≤ (latLongToBits v).whole := by
  rw [latLongToBits_eq v hv hmin]
  simp only
  omega

/-- Witness of the amended C3 at `v = -1234567`. -/
theorem latLongToBits_parts_in_range_witness :
    0 ≤ (latLongToBits (-1234567)).fraction ∧ (latLongToBits (-1234567)).fraction ≤ 9999999 ∧
    0 ≤ (latLongToBits (-1234567)).whole :=
  latLongToBits_parts_in_range (-1234567) (by decide) (by decide)

/-! ## Facts about `callback` and `deliver` -/

theorem outputLines_append (xs ys : List Event) :
    outputLines (xs ++ ys) = outputLines xs ++ outputLines ys := by
  induction xs with
  | nil => rfl
  | cons e es ih => cases e <;> simp [outputLines, ih]

theorem sleeps_append (xs ys : List Event) : sleeps (xs ++ ys) = sleeps xs + sleeps ys := by
  induction xs with
  | nil => simp [sleeps]
  | cons e es ih =>
    have hc : (e :: es) ++ ys = e :: (es ++ ys) := rfl
    rw [hc]
    cases e
    all_goals simp only [sleeps, ih]
    omega

/-- The line `callback` prints for a success-coded fix. -/
theorem callback_success (M : Nat) (w : World) (f : Fix) (h : f.errorCode = 0) :
    callback M w f =
      { gPositionCount := (w.gPositionCount + 1) % M,
        trace := w.trace ++ [Event.pUDeviceGetUserContext,
          Event.uPortLog (format "I am here: https://maps.google.com/?q=%c%d.%07d,%c%d.%07d\n"
            [Arg.chr (latLongToBits f.latitudeX1e7).sign,
             Arg.int (latLongToBits f.latitudeX1e7).whole,
             Arg.int (latLongToBits f.latitudeX1e7).fraction,
             Arg.chr (latLongToBits f.longitudeX1e7).sign,
             Arg.int (latLongToBits f.longitudeX1e7).whole,
             Arg.int (latLongToBits f.longitudeX1e7).fraction])] } := by
  simp [callback, h, World.log, World.emit]

/-- An error-coded fix only costs the look-up of the user context. -/
theorem callback_error (M : Nat) (w : World) (f : Fix) (h : f.errorCode ≠ 0) :
    callback M w f =
      { gPositionCount := w.gPositionCount,
        trace := w.trace ++ [Event.pUDeviceGetUserContext] } := by
  simp [callback, h, World.emit]

theorem deliver_nil (M : Nat) (w : World) : deliver M w [] = w := rfl

theorem deliver_cons (M : Nat) (w : World) (f : Fix) (fs : List Fix) :
    deliver M w (f :: fs) = deliver M (callback M w f) fs := rfl

theorem successes_nil : successes [] = 0 := rfl

theorem successes_cons (f : Fix) (fs : List Fix) :
    successes (f :: fs) = (if f.errorCode = 0 then 1 else 0) + successes fs := by
  by_cases h : f.errorCode = 0
  · simp [successes, List.filter, h]; omega
  · simp [successes, List.filter, h]

theorem successes_append (fs gs : List Fix) :
    successes (fs ++ gs) = successes fs + successes gs := by
  simp [successes, List.filter_append]

/-- Without wrap-around, a batch adds its number of success-coded fixes to the counter. -/
theorem deliver_count (M : Nat) (fs : List Fix) :
    ∀ w : World, w.gPositionCount + successes fs < M →
      (deliver M w fs).gPositionCount = w.gPositionCount + successes fs := by
  induction fs with
  | nil => intro w _; simp [deliver_nil, successes_nil]
  | cons f fs ih =>
    intro w h
    rw [deliver_cons, successes_cons] at *
    by_cases hf : f.errorCode = 0
    · simp only [hf, if_true] at h ⊢
      have hc : (callback M w f).gPositionCount = w.gPositionCount + 1 := by
        rw [callback_success M w f hf]
        exact Nat.mod_eq_of_lt (by omega)
      rw [ih _ (by rw [hc]; omega), hc]
      omega
    · simp only [hf, if_false] at h ⊢
      have hc : (callback M w f).gPositionCount = w.gPositionCount := by
        rw [callback_error M w f hf]
      rw [ih _ (by rw [hc]; omega), hc]
      omega

/-- A batch prints one line per success-coded fix. -/
theorem deliver_lines (M : Nat) (fs : List Fix) :
    ∀ w : World, (outputLines (deliver M w fs).trace).length
      = (outputLines w.trace).length + successes fs := by
  induction fs with
  | nil => intro w; simp [deliver_nil, successes_nil]
  | cons f fs ih =>
    intro w
    rw [deliver_cons, successes_cons, ih]
    by_cases hf : f.errorCode = 0
    · rw [callback_success M w f hf]
      simp [outputLines_append, outputLines, hf]
      omega
    · rw [callback_error M w f hf]
      simp [outputLines_append, outputLines, hf]

/-- A batch never sleeps. -/
theorem deliver_sleeps (M : Nat) (fs : List Fix) :
    ∀ w : World, sleeps (deliver M w fs).trace = sleeps w.trace := by
  induction fs with
  | nil => intro w; rfl
  | cons f fs ih =>
    intro w
    rw [deliver_cons, ih]
    by_cases hf : f.errorCode = 0
    · rw [callback_success M w f hf]; simp [sleeps_append, sleeps]
    · rw [callback_error M w f hf]; simp [sleeps_append, sleeps]

/-- With wrap-around: `n` success-coded fixes in a row move the counter to `(c + n) mod M`. -/
theorem deliver_replicate_count (M : Nat) (f : Fix) (hf : f.errorCode = 0) (n : Nat) :
    ∀ w : World, (deliver M w (List.replicate n f)).gPositionCount
      = if n = 0 then w.gPositionCount else (w.gPositionCount + n) % M := by
  induction n with
  | zero => intro w; rfl
  | succ n ih =>
    intro w
    rw [List.replicate_succ, deliver_cons, ih, callback_success M w f hf]
    by_cases hn : n = 0
    · simp [hn]
    · simp only [hn, if_false, Nat.succ_ne_zero]
      rw [Nat.add_mod, Nat.mod_mod, ← Nat.add_mod]
      congr 1
      omega

theorem successes_replicate (f : Fix) (hf : f.errorCode = 0) (n : Nat) :
    successes (List.replicate n f) = n := by
  induction n with
  | zero => rfl
  | succ n ih => rw [List.replicate_succ, successes_cons, ih, if_pos hf]; omega

/-! ## Claims about `callback` -/

/-- C5, counterexample: a success-coded invocation of `callback` with `gPositionCount = SIZE_MAX`
takes the counter down to `0`, with a 32-bit `size_t` and with a 64-bit one alike; and `2^32`
success-coded invocations from `0` leave a 32-bit counter at `0`, not at `2^32`. -/
theorem callback_count_wraps :
    (callback 4294967296 ⟨4294967295, []⟩ ⟨0, 0, 0, 0, 0, 0, 0, 0⟩).gPositionCount = 0 ∧
    ¬ ((4294967295 : Nat)
        ≤ (callback 4294967296 ⟨4294967295, []⟩ ⟨0, 0, 0, 0, 0, 0, 0, 0⟩).gPositionCount) ∧
    (callback 18446744073709551616 ⟨18446744073709551615, []⟩
        ⟨0, 0, 0, 0, 0, 0, 0, 0⟩).gPositionCount = 0 ∧
    successes (List.replicate 4294967296 ⟨0, 0, 0, 0, 0, 0, 0, 0⟩) = 4294967296 ∧
    (deliver 4294967296 ⟨0, []⟩
        (List.replicate 4294967296 ⟨0, 0, 0, 0, 0, 0, 0, 0⟩)).gPositionCount = 0 := by
  refine ⟨by decide, by decide, by decide, successes_replicate _ rfl _, ?_⟩
  rw [deliver_replicate_count 4294967296 _ rfl]
  decide

/-- C5, amended: over every sequence `fs` of invocations of `callback` that does not take the
counter past `SIZE_MAX` (start value plus number of success-coded invocations below
`M = SIZE_MAX + 1`), each invocation leaves `gPositionCount` alone when its `errorCode` is not `0`
and adds exactly `1` when it is, so the counter never decreases, and after the sequence it equals
the start value plus the number of success-coded invocations. -/
theorem callback_counts_successes (M : Nat) (w : World) (fs : List Fix)
    (hfit : w.gPositionCount + successes fs < M) :
    (∀ pre f post, fs = pre ++ f :: post →
      (deliver M w pre).gPositionCount ≤ (callback M (deliver M w pre) f).gPositionCount ∧
      (f.errorCode ≠ 0 →
        (callback M (deliver M w pre) f).gPositionCount = (deliver M w pre).gPositionCount) ∧
      (f.errorCode = 0 →
        (callback M (deliver M w pre) f).gPositionCount
          = (deliver M w pre).gPositionCount + 1)) ∧
    (deliver M w fs).gPositionCount = w.gPositionCount + successes fs := by
  refine ⟨?_, deliver_count M fs w hfit⟩
  intro pre f post hsplit
  have hs : successes fs = successes pre + ((if f.errorCode = 0 then 1 else 0) + successes post) := by
    rw [hsplit, successes_append, successes_cons]
  have hpre : (deliver M w pre).gPositionCount = w.gPositionCount + successes pre :=
    deliver_count M pre w (by omega)
  have herr : f.errorCode ≠ 0 →
      (callback M (deliver M w pre) f).gPositionCount = (deliver M w pre).gPositionCount := by
    intro hf
    rw [callback_error M _ f hf]
  have hok : f.errorCode = 0 →
      (callback M (deliver M w pre) f).gPositionCount = (deliver M w pre).gPositionCount + 1 := by
    intro hf
    rw [callback_success M _ f hf]
    simp only [hf, if_true] at hs
    exact Nat.mod_eq_of_lt (by omega)
  refine ⟨?_, herr, hok⟩
  by_cases hf : f.errorCode = 0
  · rw [hok hf]; omega
  · rw [herr hf]

/-- Witness of the amended C5: three success-coded and two error-coded deliveries from `0` leave
`gPositionCount = 3` (32-bit `size_t`). -/
theorem callback_counts_successes_witness :
    (deliver 4294967296 ⟨0, []⟩
      [⟨0, 521234567, -1234567, 0, 0, 0, 0, 0⟩, ⟨-1, 0, 0, 0, 0, 0, 0, 0⟩,
       ⟨0, 521234568, -1234567, 0, 0, 0, 0, 0⟩, ⟨7, 0, 0, 0, 0, 0, 0, 0⟩,
       ⟨0, 521234569, -1234567, 0, 0, 0, 0, 0⟩]).gPositionCount = 0 + 3 :=
  (callback_counts_successes 4294967296 ⟨0, []⟩
      [⟨0, 521234567, -1234567, 0, 0, 0, 0, 0⟩, ⟨-1, 0, 0, 0, 0, 0, 0, 0⟩,
       ⟨0, 521234568, -1234567, 0, 0, 0, 0, 0⟩, ⟨7, 0, 0, 0, 0, 0, 0, 0⟩,
       ⟨0, 521234569, -1234567, 0, 0, 0, 0, 0⟩] (by decide)).2

/-- C6: an invocation of `callback` with `errorCode ≠ 0` emits no output line and leaves
`gPositionCount` unchanged, whatever its other arguments; an invocation with `errorCode = 0` emits
exactly one output line; so over any sequence of deliveries the number of lines emitted is the
number of success-coded deliveries. -/
theorem callback_silent_discard (M : Nat) (w : World) (f : Fix) (fs : List Fix) :
    (f.errorCode ≠ 0 →
      outputLines (callback M w f).trace = outputLines w.trace ∧
      (callback M w f).gPositionCount = w.gPositionCount) ∧
    (f.errorCode = 0 →
      ∃ line, outputLines (callback M w f).trace = outputLines w.trace ++ [line]) ∧
    (outputLines (deliver M w fs).trace).length
      = (outputLines w.trace).length + successes fs := by
  refine ⟨fun hf => ?_, fun hf => ?_, deliver_lines M fs w⟩
  · rw [callback_error M w f hf]
    simp [outputLines_append, outputLines]
  · rw [callback_success M w f hf]
    refine ⟨format "I am here: https://maps.google.com/?q=%c%d.%07d,%c%d.%07d\n"
        [Arg.chr (latLongToBits f.latitudeX1e7).sign,
         Arg.int (latLongToBits f.latitudeX1e7).whole,
         Arg.int (latLongToBits f.latitudeX1e7).fraction,
         Arg.chr (latLongToBits f.longitudeX1e7).sign,
         Arg.int (latLongToBits f.longitudeX1e7).whole,
         Arg.int (latLongToBits f.longitudeX1e7).fraction], ?_⟩
    simp only [outputLines_append, outputLines]

/-- Witness of C6: an error-coded fix after one printed line, then a success-coded one. -/
theorem callback_silent_discard_witness :
    (outputLines (callback 4294967296 ⟨1, [Event.uPortLog "x"]⟩
        ⟨-1, 521234567, -1234567, 1, 2, 3, 4, 5⟩).trace = ["x"] ∧
      (callback 4294967296 ⟨1, [Event.uPortLog "x"]⟩
        ⟨-1, 521234567, -1234567, 1, 2, 3, 4, 5⟩).gPositionCount = 1) ∧
    (∃ line, outputLines (callback 4294967296 ⟨1, [Event.uPortLog "x"]⟩
        ⟨0, 521234567, -1234567, 1, 2, 3, 4, 5⟩).trace = ["x"] ++ [line]) :=
  ⟨(callback_silent_discard 4294967296 ⟨1, [Event.uPortLog "x"]⟩
      ⟨-1, 521234567, -1234567, 1, 2, 3, 4, 5⟩ []).1 (by decide),
   (callback_silent_discard 4294967296 ⟨1, [Event.uPortLog "x"]⟩
      ⟨0, 521234567, -1234567, 1, 2, 3, 4, 5⟩ []).2.1 (by decide)⟩

/-! ## Decimal conversions -/

theorem toDigitsCore_fuel (f : Nat) : ∀ (n : Nat) (acc : List Char), n < f →
    Nat.toDigitsCore 10 f n acc = Nat.toDigitsCore 10 (n + 1) n [] ++ acc := by
  induction f using Nat.strong_induction_on with
  | _ f ih =>
    intro n acc hn
    cases f with
    | zero => omega
    | succ f =>
      simp only [Nat.toDigitsCore]
      by_cases h0 : n / 10 = 0
      · simp [h0]
      · simp only [h0, if_false]
        have hlt : n / 10 < n := by omega
        rw [ih f (by omega) (n / 10) _ (by omega)]
        cases n with
        | zero => omega
        | succ m =>
          rw [ih (m + 1) (by omega) ((m + 1) / 10) [Nat.digitChar ((m + 1) % 10)] hlt]
          simp

theorem toDigits_lt (n : Nat) (h : n < 10) : Nat.toDigits 10 n = [Nat.digitChar n] := by
  have h0 : n / 10 = 0 := by omega
  have h1 : n % 10 = n := by omega
  simp [Nat.toDigits, Nat.toDigitsCore, h0, h1]

theorem toDigits_ge (n : Nat) (h : 10 ≤ n) :
    Nat.toDigits 10 n = Nat.toDigits 10 (n / 10) ++ [Nat.digitChar (n % 10)] := by
  have h0 : ¬ n / 10 = 0 := by omega
  show Nat.toDigitsCore 10 (n + 1) n [] = Nat.toDigitsCore 10 (n / 10 + 1) (n / 10) [] ++ _
  rw [Nat.toDigitsCore]
  simp only [h0, if_false]
  rw [toDigitsCore_fuel n (n / 10) _ (by omega)]

theorem fixedDigits_zero (k : Nat) : fixedDigits k 0 = List.replicate k '0' := by
  induction k with
  | zero => rfl
  | succ k ih =>
    simp only [fixedDigits, Nat.zero_div, ih, Nat.zero_mod]
    rw [List.replicate_succ']
    rfl

theorem pad_toDigits (k : Nat) : ∀ n : Nat, n < 10 ^ (k + 1) →
    List.replicate (k + 1 - (Nat.toDigits 10 n).length) '0' ++ Nat.toDigits 10 n
      = fixedDigits (k + 1) n := by
  induction k with
  | zero =>
    intro n hn
    have h : n < 10 := by simpa using hn
    have h0 : n / 10 = 0 := by omega
    have h1 : n % 10 = n := by omega
    simp [toDigits_lt n h, fixedDigits, h1]
  | succ k ih =>
    intro n hn
    by_cases h : n < 10
    · have h0 : n / 10 = 0 := by omega
      have h1 : n % 10 = n := by omega
      rw [toDigits_lt n h]
      have hz := fixedDigits_zero (k + 1)
      rw [fixedDigits, h0, h1, hz]
      simp
    · have hq : n / 10 < 10 ^ (k + 1) := by
        rw [pow_succ] at hn
        omega
      rw [toDigits_ge n (by omega)]
      have := ih (n / 10) hq
      rw [fixedDigits, ← this]
      simp only [List.length_append, List.length_singleton, List.append_assoc]
      congr 2
      omega

theorem fmtInt_zero_natCast (n : Nat) : fmtInt 0 (n : Int) = Nat.toDigits 10 n := by
  have h : ¬ ((n : Int) < 0) := by omega
  simp [fmtInt, h]

theorem fmtInt_seven_natCast (n : Nat) (hn : n < 10000000) :
    fmtInt 7 (n : Int) = fixedDigits 7 n := by
  have h : ¬ ((n : Int) < 0) := by omega
  have := pad_toDigits 6 n (by norm_num; exact hn)
  simp only [fmtInt, h, if_false, Int.natAbs_ofNat, List.length_nil, Nat.zero_add, List.nil_append]
  exact this

/-- On its intended domain the printed rendering is the specified one. -/
theorem printedCoordinate_eq_render (v : Int) (hv : isInt32 v) (hmin : v ≠ INT32_MIN) :
    printedCoordinate v = renderCoordinate v := by
  unfold printedCoordinate renderCoordinate
  rw [latLongToBits_eq v hv hmin]
  simp only [format, formatChars]
  rw [fmtInt_zero_natCast, fmtInt_seven_natCast _ (Nat.mod_lt _ (by norm_num))]
  simp

/-- The line of `callback`, cut into its constant text and the two printed coordinates. -/
theorem format_line (a b : Bits) :
    format "I am here: https://maps.google.com/?q=%c%d.%07d,%c%d.%07d\n"
        [Arg.chr a.sign, Arg.int a.whole, Arg.int a.fraction,
         Arg.chr b.sign, Arg.int b.whole, Arg.int b.fraction]
      = "I am here: https://maps.google.com/?q=" ++
          format "%c%d.%07d" [Arg.chr a.sign, Arg.int a.whole, Arg.int a.fraction] ++ "," ++
          format "%c%d.%07d" [Arg.chr b.sign, Arg.int b.whole, Arg.int b.fraction] ++ "\n" := by
  apply String.ext
  simp [format, formatChars, String.data_append]

/-- The line a success-coded fix adds to the output: latitude, comma, longitude. -/
theorem callback_line (M : Nat) (w : World) (f : Fix) (h0 : f.errorCode = 0) :
    outputLines (callback M w f).trace = outputLines w.trace ++
      ["I am here: https://maps.google.com/?q=" ++ printedCoordinate f.latitudeX1e7 ++ "," ++
        printedCoordinate f.longitudeX1e7 ++ "\n"] := by
  rw [callback_success M w f h0, format_line]
  simp only [outputLines_append, outputLines, printedCoordinate]

/-! ## Claims about the output line -/

/-- C7: for a success-coded fix whose two coordinates are `int32_t` values other than `-2^31`,
the line `callback` emits is the text `I am here: https://maps.google.com/?q=`, two rendered
coordinates separated by one comma, and a newline, where a coordinate `v` renders as its sign
character, the decimal digits of `|v| div 10^7`, a dot, and `|v| mod 10^7` on exactly seven
digits; `521234567` renders as `+52.1234567`, `-1234567` as `-0.1234567`, `5` as `+0.0000005`. -/
theorem callback_output_format (M : Nat) (w : World) (f : Fix) (h0 : f.errorCode = 0)
    (hlat : isInt32 f.latitudeX1e7) (hlatmin : f.latitudeX1e7 ≠ INT32_MIN)
    (hlon : isInt32 f.longitudeX1e7) (hlonmin : f.longitudeX1e7 ≠ INT32_MIN) :
    outputLines (callback M w f).trace = outputLines w.trace ++
      ["I am here: https://maps.google.com/?q=" ++ renderCoordinate f.latitudeX1e7 ++ "," ++
        renderCoordinate f.longitudeX1e7 ++ "\n"] ∧
    printedCoordinate f.latitudeX1e7 = renderCoordinate f.latitudeX1e7 ∧
    printedCoordinate f.longitudeX1e7 = renderCoordinate f.longitudeX1e7 ∧
    renderCoordinate 521234567 = "+52.1234567" ∧
    renderCoordinate (-1234567) = "-0.1234567" ∧
    renderCoordinate 5 = "+0.0000005" := by
  have e1 := printedCoordinate_eq_render f.latitudeX1e7 hlat hlatmin
  have e2 := printedCoordinate_eq_render f.longitudeX1e7 hlon hlonmin
  refine ⟨?_, e1, e2, by decide, by decide, by decide⟩
  rw [callback_line M w f h0, e1, e2]

/-- Witness of C7: the fix `(latitude 521234567, longitude -1234567)`. -/
theorem callback_output_format_witness :
    outputLines (callback 4294967296 ⟨0, []⟩ ⟨0, 521234567, -1234567, 0, 0, 0, 0, 0⟩).trace
      = [] ++ ["I am here: https://maps.google.com/?q=" ++ renderCoordinate 521234567 ++ "," ++
          renderCoordinate (-1234567) ++ "\n"] :=
  (callback_output_format 4294967296 ⟨0, []⟩ ⟨0, 521234567, -1234567, 0, 0, 0, 0, 0⟩
    (by decide) (by decide) (by decide) (by decide) (by decide)).1

/-- C8, counterexample: for the fix with latitude `1.0` and longitude `2.0` degrees the text
between `?q=` and the comma is the latitude `+1.0000000` and the text after the comma is the
longitude `+2.0000000`; the line is not the one with the longitude first. -/
theorem callback_prints_latitude_first :
    outputLines (callback 4294967296 ⟨0, []⟩ ⟨0, 10000000, 20000000, 0, 0, 0, 0, 0⟩).trace
      = ["I am here: https://maps.google.com/?q=+1.0000000,+2.0000000\n"] ∧
    printedCoordinate 10000000 = "+1.0000000" ∧
    printedCoordinate 20000000 = "+2.0000000" ∧
    outputLines (callback 4294967296 ⟨0, []⟩ ⟨0, 10000000, 20000000, 0, 0, 0, 0, 0⟩).trace
      ≠ ["I am here: https://maps.google.com/?q=" ++ printedCoordinate 20000000 ++ "," ++
          printedCoordinate 10000000 ++ "\n"] := by
  decide

/-- C8, amended: for every success-coded fix, the query string emitted by `callback` has the
rendered latitude first and the rendered longitude second (the text after `?q=` and before the
comma is the rendering of `latitudeX1e7`, the text after the comma is the rendering of
`longitudeX1e7`), as in the `?q=lat,lon` convention. -/
theorem callback_field_order (M : Nat) (w : World) (f : Fix) (h0 : f.errorCode = 0) :
    outputLines (callback M w f).trace = outputLines w.trace ++
      ["I am here: https://maps.google.com/?q=" ++ printedCoordinate f.latitudeX1e7 ++ "," ++
        printedCoordinate f.longitudeX1e7 ++ "\n"] :=
  callback_line M w f h0

/-- Witness of the amended C8 at latitude `1.0`, longitude `2.0`. -/
theorem callback_field_order_witness :
    outputLines (callback 4294967296 ⟨0, []⟩ ⟨0, 10000000, 20000000, 0, 0, 0, 0, 0⟩).trace
      = [] ++ ["I am here: https://maps.google.com/?q=" ++ printedCoordinate 10000000 ++ "," ++
          printedCoordinate 20000000 ++ "\n"] :=
  callback_field_order 4294967296 ⟨0, []⟩ ⟨0, 10000000, 20000000, 0, 0, 0, 0, 0⟩ (by decide)

/-! ## Facts about the wait loop -/

theorem wrap32_guard (g : Int) (h0 : 0 ≤ g) (h1 : g < 60) : wrap32 (g + 1) = g + 1 := by
  unfold wrap32; omega

theorem emit_count (w : World) (e : Event) : (w.emit e).gPositionCount = w.gPositionCount := rfl

theorem emit_trace (w : World) (e : Event) : (w.emit e).trace = w.trace ++ [e] := rfl

theorem log_trace (w : World) (fmt : String) (args : List Arg) :
    (w.log fmt args).trace = w.trace ++ [Event.uPortLog (format fmt args)] := rfl

/-- The wait loop returns: with more fuel than sleeps left, it exits after some `k` iterations,
the first `k` at which the counter has reached `5` or the guard has reached `60`. -/
theorem waitLoop_exit (M : Nat) (fuel : Nat) : ∀ (sched : Nat → List Fix) (w : World) (g : Int),
    0 ≤ g → g ≤ 60 → 60 - g < fuel →
    ∃ k : Nat, g + k ≤ 60 ∧
      waitLoop M fuel sched w g = some (sleepN M k sched w, g + k) ∧
      (∀ j, j < k → (sleepN M j sched w).gPositionCount < 5) ∧
      (5 ≤ (sleepN M k sched w).gPositionCount ∨ g + k = 60) := by
  induction fuel with
  | zero => intro sched w g h0 h1 hf; omega
  | succ fuel ih =>
    intro sched w g h0 h1 hf
    by_cases hc : w.gPositionCount < 5 ∧ g < 60
    · obtain ⟨k, hk, hrun, hbefore, hexit⟩ :=
        ih (fun i => sched (i + 1)) (uPortTaskBlock M (sched 0) 1000 w) (g + 1)
          (by omega) (by omega) (by omega)
      refine ⟨k + 1, by push_cast; omega, ?_, ?_, ?_⟩
      · rw [waitLoop, if_pos hc, wrap32_guard g h0 hc.2, hrun]
        simp only [sleepN]
        congr 2
        push_cast; omega
      · intro j hj
        cases j with
        | zero => exact hc.1
        | succ j => exact hbefore j (by omega)
      · rcases hexit with h | h
        · exact Or.inl h
        · right; push_cast; omega
    · refine ⟨0, by simpa using h1, ?_, ?_, ?_⟩
      · rw [waitLoop, if_neg hc]
        simp [sleepN]
      · intro j hj; omega
      · simp only [sleepN, Nat.cast_zero, add_zero]
        by_cases h5 : w.gPositionCount < 5
        · right
          have : ¬ g < 60 := fun h => hc ⟨h5, h⟩
          omega
        · left; omega

theorem uPortTaskBlock_sleeps (M : Nat) (batch : List Fix) (ms : Int) (w : World) :
    sleeps (uPortTaskBlock M batch ms w).trace = sleeps w.trace + 1 := by
  rw [uPortTaskBlock, deliver_sleeps, emit_trace, sleeps_append]
  rfl

theorem sleepN_sleeps (M : Nat) (k : Nat) : ∀ (sched : Nat → List Fix) (w : World),
    sleeps (sleepN M k sched w).trace = sleeps w.trace + k := by
  induction k with
  | zero => intro sched w; rfl
  | succ k ih =>
    intro sched w
    rw [sleepN, ih, uPortTaskBlock_sleeps]
    omega

theorem successesUpTo_mono (j k : Nat) (h : j ≤ k) : ∀ sched : Nat → List Fix,
    successesUpTo sched j ≤ successesUpTo sched k := by
  induction k generalizing j with
  | zero =>
    intro sched
    have : j = 0 := by omega
    rw [this]
  | succ k ih =>
    intro sched
    cases j with
    | zero => simp [successesUpTo]
    | succ j =>
      simp only [successesUpTo]
      have := ih j (by omega) (fun i => sched (i + 1))
      omega

/-- Without wrap-around, `k` sleeps add the success-coded fixes delivered during them. -/
theorem sleepN_count (M : Nat) (k : Nat) : ∀ (sched : Nat → List Fix) (w : World),
    w.gPositionCount + successesUpTo sched k < M →
    (sleepN M k sched w).gPositionCount = w.gPositionCount + successesUpTo sched k := by
  induction k with
  | zero => intro sched w _; rfl
  | succ k ih =>
    intro sched w h
    simp only [successesUpTo] at h ⊢
    have hb : (uPortTaskBlock M (sched 0) 1000 w).gPositionCount
        = w.gPositionCount + successes (sched 0) := by
      rw [uPortTaskBlock, deliver_count M _ _ (by rw [emit_count]; omega), emit_count]
    rw [sleepN, ih _ _ (by rw [hb]; omega), hb]
    omega

theorem successesUpTo_const (c : Nat) (k : Nat) : ∀ sched : Nat → List Fix,
    (∀ i, successes (sched i) = c) → successesUpTo sched k = k * c := by
  induction k with
  | zero => intro sched _; simp [successesUpTo]
  | succ k ih =>
    intro sched h
    rw [successesUpTo, h 0, ih _ (fun i => h (i + 1))]
    ring

/-- The state at the `n`-th evaluation of the loop condition, when the loop gets that far. -/
theorem waitLoopAt_some (M : Nat) (n : Nat) :
    ∀ (sched : Nat → List Fix) (w : World) (g : Int) (wn : World) (gn : Int),
    0 ≤ g → g ≤ 60 → waitLoopAt M n sched w g = some (wn, gn) →
    gn = g + n ∧ gn ≤ 60 ∧ wn = sleepN M n sched w := by
  induction n with
  | zero =>
    intro sched w g wn gn h0 h1 h
    simp only [waitLoopAt, Option.some.injEq, Prod.mk.injEq] at h
    obtain ⟨rfl, rfl⟩ := h
    exact ⟨by simp, h1, rfl⟩
  | succ n ih =>
    intro sched w g wn gn h0 h1 h
    by_cases hc : w.gPositionCount < 5 ∧ g < 60
    · rw [waitLoopAt, if_pos hc, wrap32_guard g h0 hc.2] at h
      obtain ⟨e1, e2, e3⟩ := ih _ _ _ _ _ (by omega) (by omega) h
      exact ⟨by push_cast; omega, e2, by rw [e3]; rfl⟩
    · rw [waitLoopAt, if_neg hc] at h
      cases h

/-- The loop does reach its `k`-th evaluation of the condition when the counter stayed below `5`
during the first `k` iterations and the guard allows `k` more sleeps. -/
theorem waitLoopAt_reached (M : Nat) (k : Nat) :
    ∀ (sched : Nat → List Fix) (w : World) (g : Int),
    0 ≤ g → g + k ≤ 60 → (∀ j, j < k → (sleepN M j sched w).gPositionCount < 5) →
    waitLoopAt M k sched w g = some (sleepN M k sched w, g + k) := by
  induction k with
  | zero => intro sched w g _ _ _; simp [waitLoopAt, sleepN]
  | succ k ih =>
    intro sched w g h0 hk hbefore
    have hc : w.gPositionCount < 5 ∧ g < 60 := ⟨hbefore 0 (by omega), by omega⟩
    rw [waitLoopAt, if_pos hc, wrap32_guard g h0 hc.2,
      ih _ _ _ (by omega) (by push_cast at hk ⊢; omega) (fun j hj => hbefore (j + 1) (by omega))]
    simp only [sleepN]
    congr 2
    push_cast; omega

/-! ## Claims about the wait loop -/

/-- C10: whatever the fix handler does (any batches of deliveries, success-coded or not, during
any sleep), the wait loop of `main` returns after at most 60 iterations (it exits at one of its
first 61 evaluations of the condition and never reaches a 62nd); the number of sleeps it
performed is the final `guardCount`; `0 ≤ guardCount ≤ 60` at every evaluation of the loop
condition; and on exit `gPositionCount ≥ 5` or `guardCount = 60`. -/
theorem waitLoop_bounded (M : Nat) (sched : Nat → List Fix) (w : World) (fuel : Nat)
    (hfuel : 60 < fuel) :
    ∃ (w' : World) (g' : Int), waitLoop M fuel sched w 0 = some (w', g') ∧
      0 ≤ g' ∧ g' ≤ 60 ∧
      ((sleeps w'.trace : Nat) : Int) = sleeps w.trace + g' ∧
      (5 ≤ w'.gPositionCount ∨ g' = 60) ∧
      (∃ k : Nat, k ≤ 60 ∧ waitLoopAt M k sched w 0 = some (w', g')) ∧
      waitLoopAt M 61 sched w 0 = none ∧
      (∀ (n : Nat) (wn : World) (gn : Int), waitLoopAt M n sched w 0 = some (wn, gn) →
        0 ≤ gn ∧ gn ≤ 60 ∧ gn = n) := by
  obtain ⟨k, hk, hrun, hbefore, hexit⟩ :=
    waitLoop_exit M fuel sched w 0 (le_refl 0) (by norm_num) (by omega)
  have hat : ∀ (n : Nat) (wn : World) (gn : Int), waitLoopAt M n sched w 0 = some (wn, gn) →
      0 ≤ gn ∧ gn ≤ 60 ∧ gn = n := by
    intro n wn gn h
    obtain ⟨e1, e2, _⟩ := waitLoopAt_some M n sched w 0 wn gn (le_refl 0) (by norm_num) h
    exact ⟨by omega, e2, by omega⟩
  refine ⟨sleepN M k sched w, (0 : Int) + k, hrun, by omega, hk, ?_, hexit,
    ⟨k, by omega, waitLoopAt_reached M k sched w 0 (le_refl 0) hk hbefore⟩, ?_, hat⟩
  · rw [sleepN_sleeps]; push_cast; omega
  · cases h : waitLoopAt M 61 sched w 0 with
    | none => rfl
    | some r =>
      obtain ⟨wn, gn⟩ := r
      have := hat 61 wn gn h
      omega

/-- Witness of C10: sixty-one units of fuel, one success-coded fix in every sleep. -/
theorem waitLoop_bounded_witness :
    ∃ (w' : World) (g' : Int),
      waitLoop 4294967296 61 (fun _ => [⟨0, 521234567, -1234567, 0, 0, 0, 0, 0⟩])
        World.start 0 = some (w', g') ∧
      0 ≤ g' ∧ g' ≤ 60 ∧
      ((sleeps w'.trace : Nat) : Int) = sleeps World.start.trace + g' ∧
      (5 ≤ w'.gPositionCount ∨ g' = 60) := by
  obtain ⟨w', g', h1, h2, h3, h4, h5, _⟩ :=
    waitLoop_bounded 4294967296 (fun _ => [⟨0, 521234567, -1234567, 0, 0, 0, 0, 0⟩])
      World.start 61 (by decide)
  exact ⟨w', g', h1, h2, h3, h4, h5⟩

/-- A first batch that wraps the counter back to `0`, followed by no delivery at all, keeps the
loop waiting for the full 60 sleeps. -/
theorem waitLoop_first_batch_wraps (M : Nat) (hM : 0 < M) (batch : List Fix) (w : World)
    (hw : w.gPositionCount = 0)
    (hwrap : (uPortTaskBlock M batch 1000 w).gPositionCount = 0) :
    ∃ w' : World,
      waitLoop M 61 (fun i => if i = 0 then batch else []) w 0 = some (w', 60) ∧
      w'.gPositionCount = 0 := by
  obtain ⟨k, hk, hrun, _, hexit⟩ := waitLoop_exit M 61
    (fun i => if i = 0 then batch else []) w 0 (le_refl 0) (by norm_num) (by norm_num)
  have hzero : ∀ j : Nat,
      (sleepN M j (fun i => if i = 0 then batch else []) w).gPositionCount = 0 := by
    intro j
    cases j with
    | zero => exact hw
    | succ j =>
      have hrest : successesUpTo (fun i : Nat => if i + 1 = 0 then batch else []) j = j * 0 :=
        successesUpTo_const 0 j _ (fun i => by simp [successes_nil])
      rw [sleepN, if_pos rfl,
        sleepN_count M j _ _ (by rw [hwrap, hrest]; omega), hwrap, hrest]
      omega
  rw [hzero k] at hexit
  have hk60 : (0 : Int) + k = 60 := by
    rcases hexit with h | h
    · omega
    · exact h
  exact ⟨_, by rw [hrun, hk60], hzero k⟩

theorem successesUpTo_first (batch : List Fix) :
    successesUpTo (fun i => if i = 0 then batch else []) 1 = successes batch := by
  rw [successesUpTo, successesUpTo, if_pos rfl, Nat.add_zero]

theorem uPortTaskBlock_replicate_wraps (M : Nat) (f : Fix) (hf : f.errorCode = 0) (n : Nat)
    (hn : n % M = 0) (w : World) (hw : w.gPositionCount = 0) :
    (uPortTaskBlock M (List.replicate n f) 1000 w).gPositionCount = 0 := by
  rw [uPortTaskBlock, deliver_replicate_count M f hf n, emit_count, hw]
  by_cases h0 : n = 0
  · rw [if_pos h0]
  · rw [if_neg h0, Nat.zero_add, hn]

/-- C4, counterexample: with a 32-bit `size_t`, a schedule that delivers `2^32` success-coded
fixes during the first sleep and nothing afterwards has delivered at least `5` success-coded
fixes after `k = 1 < 60` ticks, yet the counter has wrapped to `0`: the loop runs all `60`
sleeps and exits with `guardCount = 60` and `gPositionCount = 0`.  The same happens with a
64-bit `size_t` and `2^64` fixes. -/
theorem waitLoop_target_missed_on_wrap :
    (5 ≤ successesUpTo
      (fun i => if i = 0 then List.replicate 4294967296 ⟨0, 0, 0, 0, 0, 0, 0, 0⟩ else []) 1 ∧
    ∃ w' : World,
      waitLoop 4294967296 61
        (fun i => if i = 0 then List.replicate 4294967296 ⟨0, 0, 0, 0, 0, 0, 0, 0⟩ else [])
        World.start 0 = some (w', 60) ∧
      w'.gPositionCount = 0) ∧
    (5 ≤ successesUpTo
      (fun i => if i = 0 then List.replicate 18446744073709551616 ⟨0, 0, 0, 0, 0, 0, 0, 0⟩
        else []) 1 ∧
    ∃ w' : World,
      waitLoop 18446744073709551616 61
        (fun i => if i = 0 then List.replicate 18446744073709551616 ⟨0, 0, 0, 0, 0, 0, 0, 0⟩
          else [])
        World.start 0 = some (w', 60) ∧
      w'.gPositionCount = 0) :=
  ⟨⟨le_of_le_of_eq (by decide : 5 ≤ 4294967296)
      ((successes_replicate _ rfl _).symm.trans (successesUpTo_first _).symm),
    waitLoop_first_batch_wraps 4294967296 (by decide) _ World.start rfl
      (uPortTaskBlock_replicate_wraps 4294967296 _ rfl 4294967296 (by decide) World.start rfl)⟩,
   ⟨le_of_le_of_eq (by decide : 5 ≤ 18446744073709551616)
      ((successes_replicate _ rfl _).symm.trans (successesUpTo_first _).symm),
    waitLoop_first_batch_wraps 18446744073709551616 (by decide) _ World.start rfl
      (uPortTaskBlock_replicate_wraps 18446744073709551616 _ rfl 18446744073709551616
        (by decide) World.start rfl)⟩⟩

/-- C4, amended: session outcome of the wait loop (target 5 fixes, at most 60 ticks, guard
starting at 0), for every schedule of deliveries that does not take the counter past `SIZE_MAX`
(`gPositionCount` at loop entry plus the success-coded fixes of the 60 ticks below
`M = SIZE_MAX + 1`).  If at least 5 success-coded fixes have been delivered after some `k < 60`
ticks, the loop exits with `gPositionCount ≥ 5` and `guardCount ≤ k`; if fewer than 5 have been
delivered by the end of the 60th tick, it exits with `guardCount = 60` and `gPositionCount < 5`.
From a counter at `0`, one success-coded fix per tick gives `guardCount = 5`,
`gPositionCount = 5`, and no success-coded fix gives `guardCount = 60`, `gPositionCount = 0`. -/
theorem waitLoop_outcome (M : Nat) (sched : Nat → List Fix) (w : World) (fuel : Nat)
    (hfuel : 60 < fuel) (hfit : w.gPositionCount + successesUpTo sched 60 < M) :
    ∃ (w' : World) (g' : Int), waitLoop M fuel sched w 0 = some (w', g') ∧
      (∀ k : Nat, k < 60 → 5 ≤ w.gPositionCount + successesUpTo sched k →
        5 ≤ w'.gPositionCount ∧ g' ≤ k) ∧
      (w.gPositionCount + successesUpTo sched 60 < 5 → g' = 60 ∧ w'.gPositionCount < 5) ∧
      (w.gPositionCount = 0 → (∀ i, successes (sched i) = 1) →
        g' = 5 ∧ w'.gPositionCount = 5) ∧
      (w.gPositionCount = 0 → (∀ i, successes (sched i) = 0) →
        g' = 60 ∧ w'.gPositionCount = 0) := by
  obtain ⟨k, hk, hrun, hbefore, hexit⟩ :=
    waitLoop_exit M fuel sched w 0 (le_refl 0) (by norm_num) (by omega)
  have hk60 : k ≤ 60 := by omega
  have hcount : ∀ j : Nat, j ≤ 60 →
      (sleepN M j sched w).gPositionCount = w.gPositionCount + successesUpTo sched j := by
    intro j hj
    have := successesUpTo_mono j 60 hj sched
    exact sleepN_count M j sched w (by omega)
  rw [hcount k hk60] at hexit
  have hbefore2 : ∀ j, j < k → w.gPositionCount + successesUpTo sched j < 5 := by
    intro j hj
    have := hbefore j hj
    rwa [hcount j (by omega)] at this
  refine ⟨sleepN M k sched w, (0 : Int) + k, hrun, ?_, ?_, ?_, ?_⟩
  · intro k0 hk0 h5
    have hle : k ≤ k0 := by
      by_contra hlt
      have := hbefore2 k0 (by omega)
      omega
    rw [hcount k hk60]
    refine ⟨?_, by omega⟩
    rcases hexit with h | h
    · exact h
    · omega
  · intro hlt
    have := successesUpTo_mono k 60 hk60 sched
    rw [hcount k hk60]
    refine ⟨?_, by omega⟩
    rcases hexit with h | h
    · omega
    · exact h
  · intro hw hone
    have hs : ∀ j, successesUpTo sched j = j := by
      intro j
      rw [successesUpTo_const 1 j sched hone]
      omega
    rw [hcount k hk60, hs k, hw]
    rw [hs k, hw] at hexit
    have hk5 : k = 5 := by
      have hge : 5 ≤ k := by
        rcases hexit with h | h
        · omega
        · omega
      by_contra hne
      have := hbefore2 5 (by omega)
      rw [hs 5] at this
      omega
    rw [hk5]
    exact ⟨by norm_num, by norm_num⟩
  · intro hw hnone
    have hs : ∀ j, successesUpTo sched j = 0 := by
      intro j
      rw [successesUpTo_const 0 j sched hnone]
      omega
    rw [hcount k hk60, hs k, hw]
    rw [hs k, hw] at hexit
    refine ⟨?_, rfl⟩
    rcases hexit with h | h
    · omega
    · exact h

/-- Witness of the amended C4: one success-coded fix during every sleep, 32-bit `size_t`. -/
theorem waitLoop_outcome_witness :
    ∃ (w' : World) (g' : Int),
      waitLoop 4294967296 61 (fun _ => [⟨0, 521234567, -1234567, 0, 0, 0, 0, 0⟩])
        World.start 0 = some (w', g') ∧ g' = 5 ∧ w'.gPositionCount = 5 := by
  obtain ⟨w', g', hrun, _, _, hone, _⟩ :=
    waitLoop_outcome 4294967296 (fun _ => [⟨0, 521234567, -1234567, 0, 0, 0, 0, 0⟩])
      World.start 61 (by decide) (by decide)
  exact ⟨w', g', hrun, hone rfl (fun _ => rfl)⟩


/-! ## Facts about `main` -/

theorem callback_countP (p : Event → Bool) (hctx : p Event.pUDeviceGetUserContext = false)
    (hline : ∀ a b : Bits,
      p (Event.uPortLog (format "I am here: https://maps.google.com/?q=%c%d.%07d,%c%d.%07d\n"
        [Arg.chr a.sign, Arg.int a.whole, Arg.int a.fraction,
         Arg.chr b.sign, Arg.int b.whole, Arg.int b.fraction])) = false)
    (M : Nat) (w : World) (f : Fix) :
    List.countP p (callback M w f).trace = List.countP p w.trace := by
  by_cases hf : f.errorCode = 0
  · rw [callback_success M w f hf]
    simp [List.countP_append, List.countP_cons, hctx, hline]
  · rw [callback_error M w f hf]
    simp [List.countP_append, List.countP_cons, hctx]

theorem deliver_countP (p : Event → Bool) (hctx : p Event.pUDeviceGetUserContext = false)
    (hline : ∀ a b : Bits,
      p (Event.uPortLog (format "I am here: https://maps.google.com/?q=%c%d.%07d,%c%d.%07d\n"
        [Arg.chr a.sign, Arg.int a.whole, Arg.int a.fraction,
         Arg.chr b.sign, Arg.int b.whole, Arg.int b.fraction])) = false)
    (M : Nat) (fs : List Fix) :
    ∀ w : World, List.countP p (deliver M w fs).trace = List.countP p w.trace := by
  induction fs with
  | nil => intro w; rfl
  | cons f fs ih =>
    intro w
    rw [deliver_cons, ih, callback_countP p hctx hline]

theorem sleepN_countP (p : Event → Bool) (hctx : p Event.pUDeviceGetUserContext = false)
    (hline : ∀ a b : Bits,
      p (Event.uPortLog (format "I am here: https://maps.google.com/?q=%c%d.%07d,%c%d.%07d\n"
        [Arg.chr a.sign, Arg.int a.whole, Arg.int a.fraction,
         Arg.chr b.sign, Arg.int b.whole, Arg.int b.fraction])) = false)
    (hsleep : ∀ ms, p (Event.uPortTaskBlock ms) = false)
    (M : Nat) (k : Nat) : ∀ (sched : Nat → List Fix) (w : World),
    List.countP p (sleepN M k sched w).trace = List.countP p w.trace := by
  induction k with
  | zero => intro sched w; rfl
  | succ k ih =>
    intro sched w
    rw [sleepN, ih, uPortTaskBlock, deliver_countP p hctx hline, emit_trace]
    simp [List.countP_append, List.countP_cons, hsleep]

theorem isStop_line (a b : Bits) :
    isStop (Event.uPortLog (format "I am here: https://maps.google.com/?q=%c%d.%07d,%c%d.%07d\n"
        [Arg.chr a.sign, Arg.int a.whole, Arg.int a.fraction,
         Arg.chr b.sign, Arg.int b.whole, Arg.int b.fraction])) = false := rfl

theorem isClose_line (a b : Bits) :
    isClose (Event.uPortLog (format "I am here: https://maps.google.com/?q=%c%d.%07d,%c%d.%07d\n"
        [Arg.chr a.sign, Arg.int a.whole, Arg.int a.fraction,
         Arg.chr b.sign, Arg.int b.whole, Arg.int b.fraction])) = false := rfl

theorem isFailureMessage_line (a b : Bits) :
    isFailureMessage
      (Event.uPortLog (format "I am here: https://maps.google.com/?q=%c%d.%07d,%c%d.%07d\n"
        [Arg.chr a.sign, Arg.int a.whole, Arg.int a.fraction,
         Arg.chr b.sign, Arg.int b.whole, Arg.int b.fraction])) = false := by
  simp [isFailureMessage, format, formatChars]

theorem main_open_fails (M : Nat) (env : Env) (fuel : Nat) (h : env.openCode ≠ 0) :
    ∃ r, main M env fuel World.start = some r ∧ r.world.trace =
      [Event.uPortInit, Event.uPortI2cInit, Event.uPortSpiInit, Event.uDeviceInit,
       Event.uDeviceOpen,
       Event.uPortLog (format "Opened device with return code %d.\n" [Arg.int env.openCode]),
       Event.uPortLog "Unable to open GNSS!\n",
       Event.uDeviceDeinit, Event.uPortSpiDeinit, Event.uPortI2cDeinit, Event.uPortDeinit,
       Event.uPortLog "Done.\n"] := by
  refine ⟨_, by simp only [main, h, if_false]; rfl, ?_⟩
  simp [World.emit, World.log, World.start]
  decide


theorem main_start_fails (M : Nat) (env : Env) (fuel : Nat) (ho : env.openCode = 0)
    (hs : env.startCode ≠ 0) :
    ∃ r, main M env fuel World.start = some r ∧ r.world.trace =
      [Event.uPortInit, Event.uPortI2cInit, Event.uPortSpiInit, Event.uDeviceInit,
       Event.uDeviceOpen,
       Event.uPortLog "Opened device with return code 0.\n",
       Event.uDeviceSetUserContext,
       Event.uPortLog "Starting position stream.\n",
       Event.uGnssPosGetStreamedStart env.periodMs,
       Event.uPortLog "Unable to start position stream!\n",
       Event.uDeviceClose false,
       Event.uDeviceDeinit, Event.uPortSpiDeinit, Event.uPortI2cDeinit, Event.uPortDeinit,
       Event.uPortLog "Done.\n"] := by
  refine ⟨_, by simp only [main, ho, hs, if_true, if_false]; rfl, ?_⟩
  simp [World.emit, World.log, World.start]
  decide

/-- When both calls succeed, `main` reaches the loop in a world `w1` that has not slept, stopped
or closed yet, leaves it after `k ≤ 60` sleeps, and then stops, closes and tidies up. -/
theorem main_success (M : Nat) (env : Env) (fuel : Nat) (ho : env.openCode = 0)
    (hs : env.startCode = 0) (hfuel : 60 < fuel) :
    ∃ (w1 : World) (k : Nat) (r : MainResult),
      sleeps w1.trace = 0 ∧ List.countP isStop w1.trace = 0 ∧
      List.countP isClose w1.trace = 0 ∧
      main M env fuel World.start = some r ∧ r.guardCount = k ∧
      r.world.trace = (sleepN M k env.sched w1).trace ++
        [Event.uGnssPosGetStreamedStop, Event.uDeviceClose false,
         Event.uDeviceDeinit, Event.uPortSpiDeinit, Event.uPortI2cDeinit, Event.uPortDeinit,
         Event.uPortLog "Done.\n"] := by
  simp only [main, ho, hs, if_true]
  generalize hw0 : (((((((((World.start.emit Event.uPortInit).emit Event.uPortI2cInit).emit
    Event.uPortSpiInit).emit Event.uDeviceInit).emit Event.uDeviceOpen).log
    "Opened device with return code %d.\n" [Arg.int 0]).emit Event.uDeviceSetUserContext).log
    "Starting position stream.\n" []).emit (Event.uGnssPosGetStreamedStart env.periodMs)) = w0
  have h0s : sleeps w0.trace = 0 := by rw [← hw0]; rfl
  have h0p : List.countP isStop w0.trace = 0 := by rw [← hw0]; rfl
  have h0c : List.countP isClose w0.trace = 0 := by rw [← hw0]; rfl
  obtain ⟨k, _, hrun, _, _⟩ := waitLoop_exit M fuel env.sched
    ((deliver M w0 env.early).log "Waiting up to 60 seconds for 5 position fixes.\n" [])
    0 (le_refl 0) (by norm_num) (by omega)
  refine ⟨(deliver M w0 env.early).log "Waiting up to 60 seconds for 5 position fixes.\n" [],
    k, _, ?_, ?_, ?_, by rw [hrun], ?_, ?_⟩
  · rw [log_trace, sleeps_append, deliver_sleeps, h0s]; rfl
  · rw [log_trace, List.countP_append, deliver_countP isStop rfl isStop_line, h0p]; rfl
  · rw [log_trace, List.countP_append, deliver_countP isClose rfl isClose_line, h0c]; rfl
  · simp
  · simp [World.emit, World.log]
    decide


/-! ## Claim about the start/stop protocol -/

/-- C9: the trace of `main` for every combination of return codes.  If `uDeviceOpen` or
`uGnssPosGetStreamedStart` returns a non-zero code, `uPortTaskBlock` is never called (the wait
loop is not entered), `uGnssPosGetStreamedStop` is never called and exactly one failure message is
logged.  If both return `0`, `uGnssPosGetStreamedStop` is called exactly once, after the last
`uPortTaskBlock` (all the sleeps, as many as the final `guardCount`, come before it), whatever
ended the wait.  `uDeviceClose` is called exactly once whenever the open succeeded. -/
theorem main_start_stop_protocol (M : Nat) (env : Env) (fuel : Nat) (hfuel : 60 < fuel) :
    ∃ r : MainResult, main M env fuel World.start = some r ∧
      ((env.openCode ≠ 0 ∨ env.startCode ≠ 0) →
        sleeps r.world.trace = 0 ∧
        List.countP isStop r.world.trace = 0 ∧
        List.countP isFailureMessage r.world.trace = 1) ∧
      ((env.openCode = 0 ∧ env.startCode = 0) →
        List.countP isStop r.world.trace = 1 ∧
        ∃ before after : List Event,
          r.world.trace = before ++ Event.uGnssPosGetStreamedStop :: after ∧
          sleeps after = 0 ∧
          ((sleeps before : Nat) : Int) = r.guardCount) ∧
      (env.openCode = 0 → List.countP isClose r.world.trace = 1) := by
  by_cases ho : env.openCode = 0
  · by_cases hs : env.startCode = 0
    · obtain ⟨w1, k, r, h1s, h1p, h1c, hr, hg, htr⟩ := main_success M env fuel ho hs hfuel
      refine ⟨r, hr, ?_, ?_, ?_⟩
      · intro h
        rcases h with h | h
        · exact absurd ho h
        · exact absurd hs h
      · intro _
        refine ⟨?_, (sleepN M k env.sched w1).trace, _, htr, rfl, ?_⟩
        · rw [htr, List.countP_append,
            sleepN_countP isStop rfl isStop_line (fun _ => rfl), h1p]
          rfl
        · rw [sleepN_sleeps, h1s, hg]
          simp
      · intro _
        rw [htr, List.countP_append,
          sleepN_countP isClose rfl isClose_line (fun _ => rfl), h1c]
        rfl
    · obtain ⟨r, hr, htr⟩ := main_start_fails M env fuel ho hs
      refine ⟨r, hr, ?_, ?_, ?_⟩
      · intro _
        rw [htr]
        refine ⟨rfl, rfl, ?_⟩
        simp [List.countP_cons, isFailureMessage]
      · intro h
        exact absurd h.2 hs
      · intro _
        rw [htr]
        rfl
  · obtain ⟨r, hr, htr⟩ := main_open_fails M env fuel ho
    refine ⟨r, hr, ?_, ?_, ?_⟩
    · intro _
      rw [htr]
      refine ⟨rfl, rfl, ?_⟩
      simp [List.countP_cons, isFailureMessage, format, formatChars]
    · intro h
      exact absurd h.1 ho
    · intro h
      exact absurd h ho

/-- Witness of C9: both calls succeed and one success-coded fix arrives during every sleep. -/
theorem main_start_stop_protocol_witness :
    ∃ r : MainResult,
      main 4294967296 ⟨0, 0, 1000, [], fun _ => [⟨0, 521234567, -1234567, 0, 0, 0, 0, 0⟩]⟩ 61
        World.start = some r ∧
      List.countP isStop r.world.trace = 1 ∧
      List.countP isClose r.world.trace = 1 := by
  obtain ⟨r, hr, _, hok, hclose⟩ := main_start_stop_protocol 4294967296
    ⟨0, 0, 1000, [], fun _ => [⟨0, 521234567, -1234567, 0, 0, 0, 0, 0⟩]⟩ 61 (by decide)
  exact ⟨r, hr, (hok ⟨rfl, rfl⟩).1, hclose rfl⟩

end UblxZephyr
